import Mathlib

/-!
A shallow embedding of `src/packages/engine/scripts/mlx_runner.py`, the
FRAKTAG unified MLX + embeddings runner.  The external collaborators
(`mlx_lm.load`, `mlx_lm.stream_generate`, `SentenceTransformer.encode`)
are modelled as function parameters; the engine's own state management,
lock discipline and response shaping are translated directly from the
source.
-/

namespace MlxRunner

/-! ## Registry state (`EngineState`, mlx_runner.py lines 23-47)

`chat_model` / `tokenizer` are the in-memory handles returned by the
external loader (abstracted to `Nat` handles); `none` stands for both the
initial `None` value and for the attribute having been `del`eted.
`chat_model_path` is the identity of the currently loaded chat model.
The embedding model is loaded once in `__init__` and never mutated, so it
does not appear in the mutable state. -/
structure EngineState where
  chat_model : Option Nat
  tokenizer : Option Nat
  chat_model_path : Option String
  deriving Repr, DecidableEq

/-- The state right after `EngineState.__init__`: no chat model loaded. -/
def initState : EngineState := { chat_model := none, tokenizer := none, chat_model_path := none }

/-- Result of one `load_chat_model` call: the state after the call, the
list of paths for which the external loader `load(...)` was actually
invoked during the call, and whether the call returned normally
(`ok = false` means the loader raised and the exception propagated). -/
structure LoadStep where
  state : EngineState
  loads : List String
  ok : Bool
  deriving Repr, DecidableEq

/-- `EngineState.load_chat_model` (mlx_runner.py lines 33-45).
`loader` models the external `mlx_lm.load`: `none` means it raises.
Faithful to the source order: the fast path returns when
`chat_model_path == model_path`; otherwise, if a model is resident, it is
`del`eted (and the metal cache cleared) *before* the loader runs; the
loader result is then assigned to `chat_model`/`tokenizer` and finally
`chat_model_path` is updated. -/
def load_chat_model (loader : String → Option (Nat × Nat)) (s : EngineState)
    (model_path : String) : LoadStep :=
  if s.chat_model_path = some model_path then
    { state := s, loads := [], ok := true }
  else
    let s1 := if s.chat_model.isSome then
        { s with chat_model := none, tokenizer := none }
      else s
    match loader model_path with
    | none => { state := s1, loads := [model_path], ok := false }
    | some mt =>
        { state := { s1 with chat_model := some mt.1, tokenizer := some mt.2,
                             chat_model_path := some model_path },
          loads := [model_path], ok := true }

/-- State reached after a sequence of `load_chat_model` calls. -/
def applySeq (loader : String → Option (Nat × Nat)) (reqs : List String)
    (s : EngineState) : EngineState :=
  reqs.foldl (fun st p => (load_chat_model loader st p).state) s

/-- The external-loader invocations accumulated over a sequence of
`load_chat_model` calls, in order. -/
def loadLog (loader : String → Option (Nat × Nat)) (reqs : List String)
    (s : EngineState) : List String :=
  match reqs with
  | [] => []
  | p :: rest =>
      (load_chat_model loader s p).loads ++
        loadLog loader rest (load_chat_model loader s p).state

/-- The registry invariant claimed by the spec:
`current_model.is_some() == current_identity.is_some()`. -/
def registryInv (s : EngineState) : Prop :=
  s.chat_model.isSome = s.chat_model_path.isSome

instance (s : EngineState) : Decidable (registryInv s) := by
  unfold registryInv; infer_instance

/-! ## Request and response shapes (mlx_runner.py lines 49-63, 94-134, 147-155)

`temperature` and `top_p` are passed through unchanged to the external
sampler (`make_sampler`) and never inspected by the engine, so the
sampler is kept abstract here. -/

structure ChatMessage where
  role : String
  content : String
  deriving Repr, DecidableEq

structure ChatCompletionRequest where
  model : String
  messages : List ChatMessage
  max_tokens : Nat
  stream : Bool
  deriving Repr, DecidableEq

structure ChatChoiceMessage where
  role : String
  content : String
  deriving Repr, DecidableEq

structure ChatChoice where
  index : Nat
  message : ChatChoiceMessage
  finish_reason : String
  deriving Repr, DecidableEq

structure ChatResponse where
  id : String
  object : String
  created : Nat
  model : String
  choices : List ChatChoice
  deriving Repr, DecidableEq

/-- The non-streaming accumulation loop (lines 95-103):
`response_text = ""` then `response_text += response.text` for each
response yielded by the external `stream_generate`.  `deltas` is the list
of `response.text` values, in production order. -/
def accumulateText (deltas : List String) : String :=
  deltas.foldl (fun acc d => acc ++ d) ""

/-- The non-streaming response envelope (lines 105-111), given the text
deltas produced by the external generator and the current time `now`. -/
def chat_completion_response (now : Nat) (req : ChatCompletionRequest)
    (deltas : List String) : ChatResponse :=
  { id := "chatcmpl-" ++ toString now
    object := "chat.completion"
    created := now
    model := req.model
    choices := [{ index := 0,
                  message := { role := "assistant", content := accumulateText deltas },
                  finish_reason := "stop" }] }

/-- Python `sep.join(l)` semantics, as used in the fallback prompt. -/
def joinSep (sep : String) : List String → String
  | [] => ""
  | [a] => a
  | a :: b :: rest => a ++ sep ++ joinSep sep (b :: rest)

/-- The fallback prompt of line 78, taken when the tokenizer has no chat
template: `"\n".join([f"{m.role}: {m.content}" for m in messages]) +
"\nassistant:"`. -/
def renderFallbackPrompt (messages : List ChatMessage) : String :=
  joinSep "\n" (messages.map fun m => m.role ++ ": " ++ m.content) ++ "\nassistant:"

/-- The spec formula for the fallback prompt: the concatenation of
`"{role}: {content}\n"` for each message in order, terminated by
`"assistant:"`.  Stated from the spec's words, to be compared with
`renderFallbackPrompt` which is translated from the code. -/
def specFallbackPrompt (messages : List ChatMessage) : String :=
  (messages.map fun m => m.role ++ ": " ++ m.content ++ "\n").foldr (fun a b => a ++ b) ""
    ++ "assistant:"

/-- One streaming chunk (lines 147-153).  The `model` field is read from
the shared `state.chat_model_path` at chunk-production time; `delta` is
the `response.text` of the current generation step; `finish_reason` is
always `None` on content chunks. -/
structure StreamChunk where
  id : String
  object : String
  created : Nat
  model : Option String
  delta_content : String
  finish_reason : Option String
  deriving Repr, DecidableEq

/-- Builds the chunk dictionary of lines 147-153 from the shared engine
state `s` as it is at production time. -/
def mkStreamChunk (response_id : String) (now : Nat) (s : EngineState)
    (delta : String) : StreamChunk :=
  { id := response_id
    object := "chat.completion.chunk"
    created := now
    model := s.chat_model_path
    delta_content := delta
    finish_reason := none }

/-! ## Embeddings (`create_embeddings`, mlx_runner.py lines 113-134) -/

structure EmbeddingItem (α : Type) where
  object : String
  embedding : α
  index : Nat
  deriving Repr, DecidableEq

/-- Line 117: `inputs = [req.input] if isinstance(req.input, str) else req.input`. -/
def normalizeInput : String ⊕ List String → List String
  | Sum.inl s => [s]
  | Sum.inr l => l

/-- Line 118: `prefixed_inputs = [f"search_document: {text}" for text in inputs]`. -/
def prefixInputs (inputs : List String) : List String :=
  inputs.map fun text => "search_document: " ++ text

/-- Lines 121-127: `for i, vec in enumerate(vectors): data.append({...})`. -/
def mkEmbedData {α : Type} : Nat → List α → List (EmbeddingItem α)
  | _, [] => []
  | i, vec :: rest => { object := "embedding", embedding := vec, index := i } :: mkEmbedData (i + 1) rest

/-- The `data` list of the embeddings response, given the external encoder
`encode` (modelling `state.embed_model.encode` on one text). -/
def create_embeddings_data {α : Type} (encode : String → α)
    (input : String ⊕ List String) : List (EmbeddingItem α) :=
  mkEmbedData 0 ((prefixInputs (normalizeInput input)).map encode)

/-! ## Concurrency model

The server runs on one asyncio event loop; request handlers interleave at
await points.  We model each logical request as a sequential program of
atomic actions and let an arbitrary scheduler interleave the programs.
`gpu_lock` is an `asyncio.Lock`: `acquire` suspends while the lock is
held and otherwise takes it; `release` frees it. -/

inductive Act where
  | acquire
  | release
  | loadModel (path : String)
  | render
  | genToken
  | chunk
  | done
  | encode
  deriving Repr, DecidableEq

/-- Observable events of a run; `chunkOut` records the shared
`state.chat_model_path` as read at chunk-production time (line 151). -/
inductive Event where
  | loaded (tid : Nat) (path : String)
  | loadFailed (tid : Nat) (path : String)
  | rendered (tid : Nat)
  | chunkOut (tid : Nat) (model : Option String)
  | doneOut (tid : Nat)
  | encoded (tid : Nat)
  deriving Repr, DecidableEq

/-- The program of a non-streaming chat request for model `m` whose
generation yields `n` deltas: everything happens inside one
`async with gpu_lock` block (lines 68-111). -/
def nonStreamProg (m : String) (n : Nat) : List Act :=
  [Act.acquire, Act.loadModel m, Act.render] ++ List.replicate n Act.genToken ++ [Act.release]

/-- The program of a streaming chat request for model `m` with `n` chunks,
translated from the code as written: `chat_completions` acquires the
lock, loads the model and renders the prompt, then RETURNS the
`StreamingResponse` — exiting the `async with` block and releasing the
lock (lines 68-92).  Only when the response body is iterated does
`generate_stream_locked` re-acquire the lock and produce the chunks and
the terminal `[DONE]` marker under it (lines 136-155). -/
def streamProg (m : String) (n : Nat) : List Act :=
  [Act.acquire, Act.loadModel m, Act.render, Act.release, Act.acquire] ++
    List.replicate n Act.chunk ++ [Act.done, Act.release]

/-- The program of an embedding request (lines 116-134). -/
def embedProg : List Act := [Act.acquire, Act.encode, Act.release]

structure Task where
  prog : List Act
  inCrit : Bool
  deriving Repr, DecidableEq

structure Sys where
  lock : Bool
  tasks : List Task
  reg : EngineState
  events : List Event
  deriving Repr, DecidableEq

/-- The initial system: lock free, registry fresh, one task per request
program, no task inside the critical section. -/
def initSys (progs : List (List Act)) : Sys :=
  { lock := false
    tasks := progs.map fun p => { prog := p, inCrit := false }
    reg := initState
    events := [] }

/-- One scheduler step: task `t` runs its next action.  `acquire` on a
held lock leaves the task suspended (no progress); `release` is only ever
reached by the holder in the translated programs, and is a no-op for a
non-holder. -/
def step (loader : String → Option (Nat × Nat)) (sys : Sys) (t : Nat) : Sys :=
  match sys.tasks.get? t with
  | none => sys
  | some tk =>
    match tk.prog with
    | [] => sys
    | a :: rest =>
      match a with
      | Act.acquire =>
          if sys.lock then sys
          else { sys with lock := true,
                          tasks := sys.tasks.set t { tk with prog := rest, inCrit := true } }
      | Act.release =>
          if tk.inCrit then
            { sys with lock := false,
                       tasks := sys.tasks.set t { tk with prog := rest, inCrit := false } }
          else sys
      | Act.loadModel p =>
          { sys with reg := (load_chat_model loader sys.reg p).state,
                     tasks := sys.tasks.set t { tk with prog := rest },
                     events := sys.events ++
                       (if (load_chat_model loader sys.reg p).ok then
                          (load_chat_model loader sys.reg p).loads.map (Event.loaded t)
                        else [Event.loadFailed t p]) }
      | Act.render =>
          { sys with tasks := sys.tasks.set t { tk with prog := rest },
                     events := sys.events ++ [Event.rendered t] }
      | Act.genToken =>
          { sys with tasks := sys.tasks.set t { tk with prog := rest } }
      | Act.chunk =>
          { sys with tasks := sys.tasks.set t { tk with prog := rest },
                     events := sys.events ++ [Event.chunkOut t sys.reg.chat_model_path] }
      | Act.done =>
          { sys with tasks := sys.tasks.set t { tk with prog := rest },
                     events := sys.events ++ [Event.doneOut t] }
      | Act.encode =>
          { sys with tasks := sys.tasks.set t { tk with prog := rest },
                     events := sys.events ++ [Event.encoded t] }

/-- Run a schedule (a list of task indices) from a system state. -/
def run (loader : String → Option (Nat × Nat)) (sched : List Nat) (sys : Sys) : Sys :=
  sched.foldl (step loader) sys

/-- Number of tasks currently inside the gate's critical section. -/
def countCrit : List Task → Nat
  | [] => 0
  | t :: rest => (if t.inCrit then 1 else 0) + countCrit rest

/-! ## Lock discipline of a single request's execution trace

For the release-on-every-path claims we track the lock along the sequence
of actions one request performs, for each exit path of the handler. -/

/-- How one request's execution left the handler: normal completion, a
model-load failure, an exception raised by the generation or encoding
collaborator after `k` accelerator steps, or consumer cancellation after
`k` chunks.  In the source every lock acquisition sits in an
`async with gpu_lock` block, whose exit runs on all of these paths (an
async generator receives `GeneratorExit` at its current `yield` when
closed, so its `async with` also exits). -/
inductive Outcome where
  | normal
  | loadFail
  | errorAt (k : Nat)
  | cancelAt (k : Nat)
  deriving Repr, DecidableEq

/-- The actions actually executed by a streaming request for model `m`
with `n` available chunks, on each exit path.  A load failure propagates
out of the `async with` block of `chat_completions` before the
`StreamingResponse` is built; an error or cancellation after `k` chunks
exits the `async with` block of `generate_stream_locked`; both blocks
release the lock on exit. -/
def streamTrace (m : String) (n : Nat) : Outcome → List Act
  | Outcome.normal => streamProg m n
  | Outcome.loadFail => [Act.acquire, Act.loadModel m, Act.release]
  | Outcome.errorAt k =>
      [Act.acquire, Act.loadModel m, Act.render, Act.release, Act.acquire] ++
        List.replicate (min k n) Act.chunk ++ [Act.release]
  | Outcome.cancelAt k =>
      [Act.acquire, Act.loadModel m, Act.render, Act.release, Act.acquire] ++
        List.replicate (min k n) Act.chunk ++ [Act.release]

/-- The actions executed by a non-streaming chat request on each exit path
(a load failure or generation error propagates out of the single
`async with` block, which releases on exit). -/
def nonStreamTrace (m : String) (n : Nat) : Outcome → List Act
  | Outcome.normal => nonStreamProg m n
  | Outcome.loadFail => [Act.acquire, Act.loadModel m, Act.release]
  | Outcome.errorAt k =>
      [Act.acquire, Act.loadModel m, Act.render] ++
        List.replicate (min k n) Act.genToken ++ [Act.release]
  | Outcome.cancelAt k =>
      [Act.acquire, Act.loadModel m, Act.render] ++
        List.replicate (min k n) Act.genToken ++ [Act.release]

/-- The actions executed by an embedding request on each exit path (the
whole handler body is one `async with` block). -/
def embedTrace : Outcome → List Act
  | Outcome.normal => embedProg
  | Outcome.loadFail => [Act.acquire, Act.release]
  | Outcome.errorAt _ => [Act.acquire, Act.release]
  | Outcome.cancelAt _ => [Act.acquire, Act.release]

/-- Effect of one action on the lock, run solo. -/
def lockStep (b : Bool) (a : Act) : Bool :=
  match a with
  | Act.acquire => true
  | Act.release => false
  | _ => b

/-- Lock state after executing a trace solo, starting from lock state `b`. -/
def lockAfter (b : Bool) (l : List Act) : Bool :=
  l.foldl lockStep b

/-- Whether one action is immediately serviceable at lock state `b`:
an `acquire` must find the lock free (otherwise the task suspends),
a `release` must find it held. -/
def okStep (b : Bool) (a : Act) : Bool :=
  match a with
  | Act.acquire => !b
  | Act.release => b
  | _ => true

/-- `wellLocked b tr` checks that, run solo from lock state `b`, every
`acquire` in `tr` finds the lock free (no suspension, hence no deadlock)
and every `release` finds it held. -/
def wellLocked : Bool → List Act → Bool
  | _, [] => true
  | b, a :: rest => okStep b a && wellLocked (lockStep b a) rest

/-! ## Concrete scenario used for the stream/swap race

Task 0 issues a streaming chat request for model "A" with one chunk;
task 1 issues a non-streaming chat request for model "B" with no
generated tokens.  The scheduler runs task 0 through its handler (which
returns the `StreamingResponse`, releasing the lock), then runs task 1
to completion (which swaps the loaded model to "B"), then resumes task 0
to produce its chunks. -/

/-- An external loader that always succeeds. -/
def okLoader : String → Option (Nat × Nat) := fun p => some (p.length, 0)

/-- A loader that fails exactly on path "B". -/
def failLoader : String → Option (Nat × Nat) :=
  fun p => if p = "B" then none else some (1, 1)

/-- A registry state with model "A" loaded. -/
def loadedA : EngineState :=
  { chat_model := some 0, tokenizer := some 0, chat_model_path := some "A" }

/-- Initial system of the race scenario. -/
def c1Sys : Sys := initSys [streamProg "A" 1, nonStreamProg "B" 0]

/-- Schedule of the race scenario: task 0's handler phase, all of task 1,
then task 0's generator phase. -/
def c1Sched : List Nat := [0, 0, 0, 0, 1, 1, 1, 1, 0, 0, 0, 0]

/-- The system invariant used for mutual exclusion: at most one task is
inside the gate's critical section, and none is when the lock is free. -/
def SysInv (sys : Sys) : Prop :=
  countCrit sys.tasks ≤ 1 ∧ (sys.lock = false → countCrit sys.tasks = 0)

/-! ## Helper lemmas -/

theorem accumulateText_eq_foldr (deltas : List String) :
    accumulateText deltas = deltas.foldr (fun a b => a ++ b) "" := by
  have key : ∀ (l : List String) (acc : String),
      l.foldl (fun a d => a ++ d) acc = acc ++ l.foldr (fun a b => a ++ b) "" := by
    intro l
    induction l with
    | nil => intro acc; exact (String.append_empty acc).symm
    | cons x xs ih =>
        intro acc
        simp only [List.foldl_cons, List.foldr_cons, ih (acc ++ x), String.append_assoc]
  have h := key deltas ""
  unfold accumulateText
  rw [h, String.empty_append]

theorem joinSep_assistant (l : List String) (h : l ≠ []) :
    joinSep "\n" l ++ "\nassistant:" =
      (l.map (fun a => a ++ "\n")).foldr (fun a b => a ++ b) "" ++ "assistant:" := by
  induction l with
  | nil => exact absurd rfl h
  | cons a rest ih =>
      cases rest with
      | nil =>
          show a ++ "\nassistant:" = ((a ++ "\n") ++ "") ++ "assistant:"
          rw [String.append_empty, String.append_assoc]
          rfl
      | cons b rest2 =>
          have hne : b :: rest2 ≠ [] := by simp
          show (a ++ "\n" ++ joinSep "\n" (b :: rest2)) ++ "\nassistant:" =
            ((a ++ "\n") ++ (((b :: rest2).map (fun x => x ++ "\n")).foldr
              (fun x y => x ++ y) "")) ++ "assistant:"
          rw [String.append_assoc (a ++ "\n"), String.append_assoc (a ++ "\n"), ih hne]

theorem mkEmbedData_length {α : Type} (l : List α) :
    ∀ k, (mkEmbedData k l).length = l.length := by
  induction l with
  | nil => intro k; rfl
  | cons v rest ih => intro k; simp [mkEmbedData, ih]

theorem mkEmbedData_get {α : Type} (l : List α) :
    ∀ (k i : Nat), (mkEmbedData k l)[i]? =
      (l[i]?).map (fun v =>
        ({ object := "embedding", embedding := v, index := k + i } : EmbeddingItem α)) := by
  induction l with
  | nil => intro k i; cases i <;> rfl
  | cons v rest ih =>
      intro k i
      cases i with
      | zero => simp [mkEmbedData]
      | succ j =>
          have harith : k + 1 + j = k + (j + 1) := by omega
          simp [mkEmbedData, ih (k + 1) j, harith]

/-- Claim C7: for every non-streaming chat completion, the response
content equals the concatenation, in production order, of the text
deltas yielded by the external generator, inside an envelope with object
"chat.completion", a single choice of index 0, role "assistant", and
finish_reason "stop"; in particular the stub generator yielding "Hello"
then " there" produces content "Hello there". -/
theorem C7_nonstream_response (now : Nat) (req : ChatCompletionRequest)
    (deltas : List String) :
    (chat_completion_response now req deltas).object = "chat.completion" ∧
    (chat_completion_response now req deltas).choices =
      [⟨0, ⟨"assistant", deltas.foldr (fun a b => a ++ b) ""⟩, "stop"⟩] ∧
    accumulateText ["Hello", " there"] = "Hello there" := by
  refine ⟨rfl, ?_, by decide⟩
  simp [chat_completion_response, accumulateText_eq_foldr]

/-- Claim C9: when the tokenizer provides no chat template and the message
list is non-empty, the prompt rendered by the code (newline-joined
"role: content" lines followed by a newline and "assistant:") equals the
spec formula: the concatenation of "{role}: {content}\n" per message in
order, terminated by "assistant:". -/
theorem C9_fallback_prompt (messages : List ChatMessage) (h : messages ≠ []) :
    renderFallbackPrompt messages = specFallbackPrompt messages := by
  unfold renderFallbackPrompt specFallbackPrompt
  have hne : messages.map (fun m => m.role ++ ": " ++ m.content) ≠ [] := by
    cases messages with
    | nil => exact absurd rfl h
    | cons a rest => simp
  rw [joinSep_assistant _ hne, List.map_map]
  rfl

theorem C9_fallback_prompt_witness :
    renderFallbackPrompt [{ role := "user", content := "hi" }] =
      specFallbackPrompt [{ role := "user", content := "hi" }] :=
  C9_fallback_prompt [{ role := "user", content := "hi" }] (by decide)

/-- Claim C8: a single-string embedding input is normalized to a
one-element list; every input is prefixed with exactly "search_document: "
before encoding; and the data list is order-preserving — the element at
position i carries index i and the vector encoded from the i-th prefixed
input. -/
theorem C8_embedding_order {α : Type} (encode : String → α) (s : String)
    (texts : List String) (i : Nat) (h : i < texts.length) :
    create_embeddings_data encode (Sum.inl s) = create_embeddings_data encode (Sum.inr [s]) ∧
    (create_embeddings_data encode (Sum.inr texts)).length = texts.length ∧
    (create_embeddings_data encode (Sum.inr texts))[i]? =
      some { object := "embedding",
             embedding := encode ("search_document: " ++ texts[i]),
             index := i } := by
  refine ⟨rfl, ?_, ?_⟩
  · simp [create_embeddings_data, mkEmbedData_length, prefixInputs, normalizeInput]
  · simp [create_embeddings_data, mkEmbedData_get, prefixInputs, normalizeInput,
      List.getElem?_map, List.getElem?_eq_getElem h]

theorem C8_embedding_order_witness :
    (create_embeddings_data String.length (Sum.inr ["a", "b"]))[0]? =
      some { object := "embedding",
             embedding := ("search_document: " ++ "a").length,
             index := 0 } :=
  (C8_embedding_order String.length "x" ["a", "b"] 0 (by decide)).2.2

/-- Claim C6: `load_chat_model` is idempotent on the currently loaded
identity — requesting the current path leaves the state unchanged and
does not invoke the external loader — and the request sequence A, B, A
invokes the external loader exactly on A, B, A in order: two loads for A
and one for B, never three for A. -/
theorem C6_load_idempotent (loader : String → Option (Nat × Nat)) (s : EngineState)
    (p A B : String) (hfast : s.chat_model_path = some p)
    (hA : (loader A).isSome) (hB : (loader B).isSome) (hAB : A ≠ B) :
    (load_chat_model loader s p).state = s ∧
    (load_chat_model loader s p).loads = [] ∧
    loadLog loader [A, B, A] initState = [A, B, A] ∧
    (loadLog loader [A, B, A] initState).count A = 2 ∧
    (loadLog loader [A, B, A] initState).count B = 1 := by
  obtain ⟨a, ha⟩ := Option.isSome_iff_exists.mp hA
  obtain ⟨b, hb⟩ := Option.isSome_iff_exists.mp hB
  have hlog : loadLog loader [A, B, A] initState = [A, B, A] := by
    simp [loadLog, load_chat_model, initState, ha, hb, hAB, Ne.symm hAB]
  refine ⟨?_, ?_, hlog, ?_, ?_⟩
  · simp [load_chat_model, hfast]
  · simp [load_chat_model, hfast]
  · rw [hlog]; simp [List.count_cons, hAB, Ne.symm hAB]
  · rw [hlog]; simp [List.count_cons, hAB, Ne.symm hAB]

theorem C6_load_idempotent_witness :
    loadLog (fun _ => some (0, 0)) ["a", "b", "a"] initState = ["a", "b", "a"] :=
  (C6_load_idempotent (fun _ => some (0, 0))
      { chat_model := some 0, tokenizer := some 0, chat_model_path := some "p" }
      "p" "a" "b" rfl rfl rfl (by decide)).2.2.1

/-- Refutation of claim C3 as stated: with model "A" loaded, a failing
load of "B" leaves the registry neither unchanged nor cleared — the old
identity "A" is still recorded as current while the model itself has
been deleted. -/
theorem C3_counterexample :
    (load_chat_model failLoader loadedA "B").ok = false ∧
    (load_chat_model failLoader loadedA "B").state.chat_model_path = some "A" ∧
    (load_chat_model failLoader loadedA "B").state.chat_model = none ∧
    ¬ ((load_chat_model failLoader loadedA "B").state = loadedA ∨
       (load_chat_model failLoader loadedA "B").state.chat_model_path = none) := by
  decide

/-- Claim C3 (amended): when a `load_chat_model` call fails, the loader
was invoked on exactly the requested identity and the underlying
exception propagates unwrapped (there is no ModelLoadError type); the
registry is left either unchanged (when no model was resident) or with
the previous identity still recorded as current while the model and
tokenizer have been deleted. -/
theorem C3_load_failure_state (loader : String → Option (Nat × Nat))
    (s : EngineState) (p : String)
    (h : (load_chat_model loader s p).ok = false) :
    (load_chat_model loader s p).loads = [p] ∧
    ((load_chat_model loader s p).state = s ∨
      ((load_chat_model loader s p).state.chat_model_path = s.chat_model_path ∧
       (load_chat_model loader s p).state.chat_model = none ∧
       (load_chat_model loader s p).state.tokenizer = none)) := by
  by_cases hf : s.chat_model_path = some p
  · simp [load_chat_model, hf] at h
  · cases hl : loader p with
    | some mt => simp [load_chat_model, hf, hl] at h
    | none =>
        by_cases hm : s.chat_model.isSome
        · refine ⟨?_, Or.inr ⟨?_, ?_, ?_⟩⟩ <;> simp [load_chat_model, hf, hl, hm]
        · refine ⟨?_, Or.inl ?_⟩ <;> simp [load_chat_model, hf, hl, hm]

theorem C3_load_failure_state_witness :
    (load_chat_model failLoader loadedA "B").loads = ["B"] ∧
    ((load_chat_model failLoader loadedA "B").state = loadedA ∨
      ((load_chat_model failLoader loadedA "B").state.chat_model_path = loadedA.chat_model_path ∧
       (load_chat_model failLoader loadedA "B").state.chat_model = none ∧
       (load_chat_model failLoader loadedA "B").state.tokenizer = none)) :=
  C3_load_failure_state failLoader loadedA "B" (by decide)

/-- Refutation of claim C4 as stated: the registry invariant
`current_model.is_some() == current_identity.is_some()` fails in a
reachable state — after a successful load of "A" followed by a failed
load of "B", the identity "A" is present while the model is absent. -/
theorem C4_counterexample :
    ¬ registryInv (applySeq failLoader ["A", "B"] initState) ∧
    (applySeq failLoader ["A", "B"] initState).chat_model_path = some "A" ∧
    (applySeq failLoader ["A", "B"] initState).chat_model = none := by
  decide

/-- Claim C4 (amended): the registry invariant — the current model is
present exactly when the current identity is present — holds in every
state reachable from the initial state by load sequences in which every
invoked load succeeds; a failed load after a successful one breaks it. -/
theorem C4_registry_invariant (loader : String → Option (Nat × Nat))
    (reqs : List String) (hok : ∀ p ∈ reqs, (loader p).isSome) :
    registryInv (applySeq loader reqs initState) := by
  have key : ∀ (l : List String) (s : EngineState),
      (∀ p ∈ l, (loader p).isSome) → registryInv s → registryInv (applySeq loader l s) := by
    intro l
    induction l with
    | nil => intro s _ hs; exact hs
    | cons p rest ih =>
        intro s hl hs
        have hstep : registryInv (load_chat_model loader s p).state := by
          by_cases hf : s.chat_model_path = some p
          · simpa [load_chat_model, hf] using hs
          · obtain ⟨mt, hmt⟩ := Option.isSome_iff_exists.mp (hl p (by simp))
            simp [registryInv, load_chat_model, hf, hmt]
        have hrest : ∀ q ∈ rest, (loader q).isSome := fun q hq => hl q (by simp [hq])
        simpa [applySeq] using ih (load_chat_model loader s p).state hrest hstep
  exact key reqs initState hok (by simp [registryInv, initState])

theorem C4_registry_invariant_witness :
    registryInv (applySeq (fun _ => some (0, 0)) ["a", "b"] initState) :=
  C4_registry_invariant (fun _ => some (0, 0)) ["a", "b"] (fun _ _ => rfl)

theorem countCrit_set (l : List Task) :
    ∀ (i : Nat) (t : Task) (h : i < l.length),
      countCrit (l.set i t) + (if (l.get ⟨i, h⟩).inCrit then 1 else 0) =
        countCrit l + (if t.inCrit then 1 else 0) := by
  induction l with
  | nil => intro i t h; exact absurd h (by simp)
  | cons x xs ih =>
      intro i t h
      cases i with
      | zero =>
          cases ht : t.inCrit <;> cases hx : x.inCrit <;>
            simp [countCrit, List.set, ht, hx] <;> omega
      | succ j =>
          have h2 : j < xs.length := by simpa using h
          have hj := ih j t h2
          simp only [List.set, countCrit, List.get_cons_succ]
          omega

theorem countCrit_set_of_get (l : List Task) (t : Nat) (tk tk2 : Task)
    (hget : l.get? t = some tk) :
    countCrit (l.set t tk2) + (if tk.inCrit then 1 else 0) =
      countCrit l + (if tk2.inCrit then 1 else 0) := by
  obtain ⟨ht, hgt⟩ := List.get?_eq_some.mp hget
  have hkey := countCrit_set l t tk2 ht
  rw [hgt] at hkey
  exact hkey

theorem countCrit_init (progs : List (List Act)) :
    countCrit (initSys progs).tasks = 0 := by
  induction progs with
  | nil => rfl
  | cons p rest ih => simpa [initSys, countCrit] using ih

theorem SysInv_mk (lk : Bool) (ts : List Task) (reg : EngineState) (ev : List Event)
    (h1 : countCrit ts ≤ 1) (h2 : lk = false → countCrit ts = 0) :
    SysInv { lock := lk, tasks := ts, reg := reg, events := ev } :=
  ⟨h1, h2⟩

theorem step_inv (loader : String → Option (Nat × Nat)) (sys : Sys) (t : Nat)
    (h : SysInv sys) : SysInv (step loader sys t) := by
  obtain ⟨h1, h2⟩ := h
  unfold step
  split
  · exact ⟨h1, h2⟩
  case _ tk hget =>
    split
    · exact ⟨h1, h2⟩
    case _ a rest _ =>
      have hsame : ∀ tk2 : Task, tk2.inCrit = tk.inCrit →
          countCrit (sys.tasks.set t tk2) = countCrit sys.tasks := by
        intro tk2 hc
        have hkey := countCrit_set_of_get sys.tasks t tk tk2 hget
        rw [hc] at hkey
        omega
      have hkeep : ∀ reg2 ev2,
          SysInv { lock := sys.lock, tasks := sys.tasks.set t { tk with prog := rest },
                   reg := reg2, events := ev2 } := by
        intro reg2 ev2
        have hc := hsame { tk with prog := rest } rfl
        exact SysInv_mk _ _ _ _ (by rw [hc]; exact h1) (fun hl => by rw [hc]; exact h2 hl)
      split
      · -- Act.acquire
        by_cases hl : sys.lock = true
        · rw [if_pos hl]; exact ⟨h1, h2⟩
        · rw [if_neg hl]
          have hc0 : countCrit sys.tasks = 0 := h2 (by simpa using hl)
          have hkey := countCrit_set_of_get sys.tasks t tk
            { tk with prog := rest, inCrit := true } hget
          refine SysInv_mk _ _ _ _ ?_ (fun hcon => by simp at hcon)
          cases htk : tk.inCrit <;> simp [htk] at hkey <;> omega
      · -- Act.release
        by_cases hc : tk.inCrit = true
        · rw [if_pos hc]
          have hkey := countCrit_set_of_get sys.tasks t tk
            { tk with prog := rest, inCrit := false } hget
          rw [hc] at hkey
          simp at hkey
          exact SysInv_mk _ _ _ _ (by omega) (fun _ => by omega)
        · rw [if_neg hc]; exact ⟨h1, h2⟩
      · exact hkeep _ _  -- Act.loadModel
      · exact hkeep _ _  -- Act.render
      · exact hkeep _ _  -- Act.genToken
      · exact hkeep _ _  -- Act.chunk
      · exact hkeep _ _  -- Act.done
      · exact hkeep _ _  -- Act.encode

theorem run_inv (loader : String → Option (Nat × Nat)) (sched : List Nat)
    (sys : Sys) (h : SysInv sys) : SysInv (run loader sched sys) := by
  induction sched generalizing sys with
  | nil => exact h
  | cons t rest ih => exact ih (step loader sys t) (step_inv loader sys t h)

/-- Claim C2: mutual exclusion of the gpu_lock — starting from any mix of
request programs (chat generation, streaming chunk production, embedding
encoding, or any other action sequences) and for every interleaving the
scheduler may choose, at every reachable instant at most one task is
inside the gate's critical section. -/
theorem C2_mutual_exclusion (loader : String → Option (Nat × Nat))
    (progs : List (List Act)) (sched : List Nat) :
    countCrit (run loader sched (initSys progs)).tasks ≤ 1 :=
  (run_inv loader sched (initSys progs)
    ⟨by rw [countCrit_init]; omega, fun _ => countCrit_init progs⟩).1

/-- Claim C1 refutation, witnessing the code's actual behaviour at the
failing schedule: task 0 starts a stream for model "A"; its handler
acquires the lock, loads "A", renders the prompt, then returns the
StreamingResponse — releasing the lock before any chunk is produced.
Task 1 then loads model "B" under the lock.  When task 0's generator
finally runs, its chunk is produced against model "B", not the model
that was loaded for "A". -/
theorem C1_stream_swap_race :
    (run okLoader c1Sched c1Sys).events =
      [Event.loaded 0 "A", Event.rendered 0, Event.loaded 1 "B", Event.rendered 1,
       Event.chunkOut 0 (some "B"), Event.doneOut 0] ∧
    Event.chunkOut 0 (some "B") ∈ (run okLoader c1Sched c1Sys).events ∧
    (some "B" : Option String) ≠ some "A" := by
  decide

/-! ## Lock-trace lemmas for the release-on-every-path claim -/

theorem lockStep_other (b : Bool) : lockStep b Act.chunk = b ∧ lockStep b Act.genToken = b :=
  ⟨rfl, rfl⟩

theorem lockAfter_append (l1 l2 : List Act) (b : Bool) :
    lockAfter b (l1 ++ l2) = lockAfter (lockAfter b l1) l2 := by
  unfold lockAfter
  exact List.foldl_append lockStep b l1 l2

theorem wellLocked_append (l1 l2 : List Act) :
    ∀ b, wellLocked b (l1 ++ l2) = (wellLocked b l1 && wellLocked (lockAfter b l1) l2) := by
  induction l1 with
  | nil => intro b; simp [wellLocked, lockAfter]
  | cons a rest ih =>
      intro b
      show (okStep b a && wellLocked (lockStep b a) (rest ++ l2)) =
        ((okStep b a && wellLocked (lockStep b a) rest) &&
          wellLocked (lockAfter (lockStep b a) rest) l2)
      rw [ih (lockStep b a), Bool.and_assoc]

theorem lockAfter_replicate_chunk (n : Nat) (b : Bool) :
    lockAfter b (List.replicate n Act.chunk) = b := by
  induction n with
  | zero => rfl
  | succ k ih => simpa [List.replicate_succ, lockAfter] using ih

theorem wellLocked_replicate_chunk (n : Nat) (b : Bool) :
    wellLocked b (List.replicate n Act.chunk) = true := by
  induction n with
  | zero => rfl
  | succ k ih => simpa [List.replicate_succ, wellLocked, okStep, lockStep] using ih

theorem lockAfter_replicate_genToken (n : Nat) (b : Bool) :
    lockAfter b (List.replicate n Act.genToken) = b := by
  induction n with
  | zero => rfl
  | succ k ih => simpa [List.replicate_succ, lockAfter] using ih

/-- Claim C5: on every exit path of an accelerator-touching operation —
normal completion, a load failure, a collaborator error after any number
of steps, or cancellation of the streaming consumer after any number of
chunks — the executed trace leaves the gpu_lock free; consequently an
immediately-following embedding request finds every acquire serviceable
(no deadlock) and itself leaves the lock free. -/
theorem C5_gate_released_on_all_paths (m : String) (n : Nat) (o : Outcome) :
    lockAfter false (streamTrace m n o) = false ∧
    lockAfter false (nonStreamTrace m n o) = false ∧
    lockAfter false (embedTrace o) = false ∧
    wellLocked false (streamTrace m n o ++ embedTrace Outcome.normal) = true := by
  have hstream : lockAfter false (streamTrace m n o) = false := by
    cases o with
    | normal =>
        show lockAfter false (streamProg m n) = false
        unfold streamProg
        rw [lockAfter_append, lockAfter_append, lockAfter_replicate_chunk]
        rfl
    | loadFail => rfl
    | errorAt k =>
        show lockAfter false (_ ++ List.replicate (min k n) Act.chunk ++ [Act.release]) = false
        rw [lockAfter_append, lockAfter_append, lockAfter_replicate_chunk]
        rfl
    | cancelAt k =>
        show lockAfter false (_ ++ List.replicate (min k n) Act.chunk ++ [Act.release]) = false
        rw [lockAfter_append, lockAfter_append, lockAfter_replicate_chunk]
        rfl
  have hwell : wellLocked false (streamTrace m n o) = true := by
    cases o with
    | normal =>
        show wellLocked false (streamProg m n) = true
        unfold streamProg
        rw [wellLocked_append, wellLocked_append, lockAfter_append,
          lockAfter_replicate_chunk, wellLocked_replicate_chunk]
        rfl
    | loadFail => rfl
    | errorAt k =>
        show wellLocked false (_ ++ List.replicate (min k n) Act.chunk ++ [Act.release]) = true
        rw [wellLocked_append, wellLocked_append, lockAfter_append,
          lockAfter_replicate_chunk, wellLocked_replicate_chunk]
        rfl
    | cancelAt k =>
        show wellLocked false (_ ++ List.replicate (min k n) Act.chunk ++ [Act.release]) = true
        rw [wellLocked_append, wellLocked_append, lockAfter_append,
          lockAfter_replicate_chunk, wellLocked_replicate_chunk]
        rfl
  refine ⟨hstream, ?_, ?_, ?_⟩
  · cases o with
    | normal =>
        show lockAfter false (nonStreamProg m n) = false
        unfold nonStreamProg
        rw [lockAfter_append, lockAfter_append, lockAfter_replicate_genToken]
        rfl
    | loadFail => rfl
    | errorAt k =>
        show lockAfter false (_ ++ List.replicate (min k n) Act.genToken ++ [Act.release]) = false
        rw [lockAfter_append, lockAfter_append, lockAfter_replicate_genToken]
        rfl
    | cancelAt k =>
        show lockAfter false (_ ++ List.replicate (min k n) Act.genToken ++ [Act.release]) = false
        rw [lockAfter_append, lockAfter_append, lockAfter_replicate_genToken]
        rfl
  · cases o <;> rfl
  · rw [wellLocked_append, hwell, hstream]
    rfl

/-- Claim C10: a streaming chunk's model field is the shared
`state.chat_model_path` as read at chunk-production time, while a
non-streaming response echoes the request's model field verbatim; the
two can disagree, since the shared path need not match the identity
named by the request whose stream is producing. -/
theorem C10_model_field (response_id : String) (now now2 : Nat) (delta : String)
    (s : EngineState) (req : ChatCompletionRequest) (deltas : List String) :
    (mkStreamChunk response_id now s delta).model = s.chat_model_path ∧
    (chat_completion_response now2 req deltas).model = req.model ∧
    (∃ s2 : EngineState, ∃ req2 : ChatCompletionRequest,
      (mkStreamChunk response_id now s2 delta).model ≠ some req2.model) := by
  refine ⟨rfl, rfl, ⟨initState, ⟨"A", [], 0, false⟩, ?_⟩⟩
  simp [mkStreamChunk, initState]

end MlxRunner
